import Mathlib

set_option autoImplicit false

/-!
Shallow embedding of the PDF chapter-mapping and layered-segmentation service
(src/backend/pdf-service/pdf_processor_service.py) and verification of its
specified properties.

Page numbers and page counts are Python integers, embedded as Int.  The PDF
document handle is embedded as a record of the three capabilities the code
reads from it: the outline (get_toc), the page count, and the per-page text
accessor (doc[i].get_text(), which may raise, hence Except).  The external
recursive text splitter is a parameter (String -> Except String (List String)),
since its code lives outside this repository.
-/

namespace PdfService

/-- Embedding of Python str.strip on the character list of a string:
drop whitespace from both ends. -/
def trimChars (l : List Char) : List Char :=
  ((l.dropWhile Char.isWhitespace).reverse.dropWhile Char.isWhitespace).reverse

/-- Embedding of Python title.strip(). -/
def strip (s : String) : String :=
  String.mk (trimChars s.data)

/-- Embedding of Python s.startswith(p): p is a literal prefix of s. -/
def startswith (s p : String) : Bool :=
  p.data.isPrefixOf s.data

/-- One outline (ToC) entry as returned by doc.get_toc(): (level, title, page). -/
structure OutlineEntry where
  level : Int
  title : String
  page : Int
deriving Repr, DecidableEq, Inhabited

/-- One chapter record of the chapter map built by get_chapter_map. -/
structure Chapter where
  chapter_number : String
  title : String
  start_page : Int
  end_page : Int
deriving Repr, DecidableEq, Inhabited

/-- The opened PDF document handle: the three capabilities the code uses.
pageText i embeds doc[i].get_text(), which may raise. -/
structure Doc where
  toc : List OutlineEntry
  page_count : Int
  pageText : Int → Except String String

/-- The filter on outline entries in get_chapter_map: level == 1 and the
stripped title starts with "Chapter" or "Appendix". -/
def qualifies (e : OutlineEntry) : Bool :=
  e.level == 1 &&
    (startswith (strip e.title) "Chapter" || startswith (strip e.title) "Appendix")

/-- The enumerate loop collecting valid_chapter_indices, carrying the running
index i. -/
def validIndicesFrom : Nat → List OutlineEntry → List Nat
  | _, [] => []
  | i, e :: rest =>
    if qualifies e then i :: validIndicesFrom (i + 1) rest
    else validIndicesFrom (i + 1) rest

/-- valid_chapter_indices: indices of qualifying entries, in outline order. -/
def validChapterIndices (toc : List OutlineEntry) : List Nat :=
  validIndicesFrom 0 toc

/-- The fallback single-chapter map used when the outline is absent or has no
qualifying entries. -/
def fallbackChapters (page_count : Int) : List Chapter :=
  [⟨"1", "Full Document", 1, page_count⟩]

/-- Embedding of get_chapter_map: fallback on empty ToC, fallback when no
index qualifies, otherwise one chapter per qualifying index with end_page
taken from the next qualifying entry (or the page count for the last). -/
def get_chapter_map (doc : Doc) : List Chapter :=
  if doc.toc.isEmpty then
    fallbackChapters doc.page_count
  else
    let valid := validChapterIndices doc.toc
    if valid.isEmpty then
      fallbackChapters doc.page_count
    else
      (List.range valid.length).map (fun i =>
        let entry := doc.toc.getD (valid.getD i 0) default
        let end_page : Int :=
          if i < valid.length - 1 then
            (doc.toc.getD (valid.getD (i + 1) 0) default).page - 1
          else
            doc.page_count
        ⟨toString (i + 1), strip entry.title, entry.page, end_page⟩)

/-- Layer 1a record. -/
structure TocDoc where
  content : String
  doc_type : String
deriving Repr, DecidableEq, Inhabited

/-- Layer 1b record. -/
structure TocEntryDoc where
  content : String
  doc_type : String
  chapter : String
deriving Repr, DecidableEq, Inhabited

/-- Layer 3 record. -/
structure ChunkDoc where
  content : String
  doc_type : String
  chapter : String
  chapter_title : String
deriving Repr, DecidableEq, Inhabited

/-- The successful payload of process_pdf. -/
structure Layers where
  layer1_full_toc_doc : TocDoc
  layer1_entry_docs : List TocEntryDoc
  layer3_chunks : List ChunkDoc
deriving Repr, DecidableEq, Inhabited

/-- One line of the full-ToC text. -/
def tocLine (c : Chapter) : String :=
  "Chapter " ++ c.chapter_number ++ ": " ++ c.title ++ " (Page " ++
    toString c.start_page ++ ")"

/-- toc_text: the newline-joined full ToC. -/
def fullTocText (chapter_map : List Chapter) : String :=
  String.intercalate "\n" (chapter_map.map tocLine)

/-- One layer-1b entry document. -/
def tocEntryDoc (c : Chapter) : TocEntryDoc :=
  ⟨"Chapter " ++ c.chapter_number ++ ": " ++ c.title ++ " (Starts on Page " ++
     toString c.start_page ++ ")",
   "toc_entry", c.chapter_number⟩

/-- layer1_entry_docs. -/
def tocEntryDocs (chapter_map : List Chapter) : List TocEntryDoc :=
  chapter_map.map tocEntryDoc

/-- The NUL character stripped by the sanitizer. -/
def nulChar : Char :=
  Char.ofNat 0

/-- Embedding of chunk_content.replace("\u0000", ""): with a single-character
pattern and empty replacement this removes exactly the NUL characters. -/
def sanitize (s : String) : String :=
  String.mk (s.data.filter (fun c => c != nulChar))

/-- Embedding of Python range(lo, hi) over integers. -/
def pageRange (lo hi : Int) : List Int :=
  (List.range (hi - lo).toNat).map (fun k => lo + Int.ofNat k)

/-- The clamped 0-based page indices visited for a chapter:
range(max(0, start_page - 1), min(page_count, end_page)). -/
def requestedPages (page_count : Int) (c : Chapter) : List Int :=
  pageRange (max 0 (c.start_page - 1)) (min page_count c.end_page)

/-- The chapter_text accumulation loop: concatenate the page texts in page
order; the first failing page access aborts. -/
def chapterText (pageText : Int → Except String String) :
    List Int → Except String String
  | [] => Except.ok ""
  | i :: rest =>
    match pageText i with
    | Except.error e => Except.error e
    | Except.ok t =>
      match chapterText pageText rest with
      | Except.error e => Except.error e
      | Except.ok r => Except.ok (t ++ r)

/-- The chunk records contributed by one chapter, given the splitter output. -/
def chapterChunkDocs (c : Chapter) (chunks : List String) : List ChunkDoc :=
  chunks.map (fun s => ⟨sanitize s, "chunk", c.chapter_number, c.title⟩)

/-- The layer-3 loop: for each chapter, extract its clamped page range, split
it, sanitize each chunk, and tag it with the chapter number and title. -/
def chunkDocs (split : String → Except String (List String))
    (pageText : Int → Except String String) (page_count : Int) :
    List Chapter → Except String (List ChunkDoc)
  | [] => Except.ok []
  | c :: rest =>
    match chapterText pageText (requestedPages page_count c) with
    | Except.error e => Except.error e
    | Except.ok txt =>
      match split txt with
      | Except.error e => Except.error e
      | Except.ok chunks =>
        match chunkDocs split pageText page_count rest with
        | Except.error e => Except.error e
        | Except.ok tail => Except.ok (chapterChunkDocs c chunks ++ tail)

/-- Outcome of one process_pdf request: the HTTP-level response together with
whether the document handle was acquired and whether it was closed before
returning.  The source closes the handle only after all three layers are
built; the except-branch returns without closing. -/
structure RunOutcome where
  response : Except String Layers
  opened : Bool
  closed : Bool
deriving Repr

/-- Embedding of the body of process_pdf from fitz.open onward: openDoc is the
result of fitz.open (which may raise), split the external text splitter.  Any
raised error is caught and surfaced as a single "Failed to process PDF: ..."
message. -/
def process_pdf (openDoc : Except String Doc)
    (split : String → Except String (List String)) : RunOutcome :=
  match openDoc with
  | Except.error e => ⟨Except.error ("Failed to process PDF: " ++ e), false, false⟩
  | Except.ok doc =>
    let chapter_map := get_chapter_map doc
    let layer1_full_toc_doc : TocDoc := ⟨fullTocText chapter_map, "toc_full"⟩
    let layer1_entry_docs := tocEntryDocs chapter_map
    match chunkDocs split doc.pageText doc.page_count chapter_map with
    | Except.error e => ⟨Except.error ("Failed to process PDF: " ++ e), true, false⟩
    | Except.ok layer3_chunks =>
      ⟨Except.ok ⟨layer1_full_toc_doc, layer1_entry_docs, layer3_chunks⟩, true, true⟩

/-- Specification-shaped view of the non-fallback branch of get_chapter_map:
chapters indexed directly by position in the filtered qualifying-entry list. -/
def chaptersOf (fs : List OutlineEntry) (page_count : Int) : List Chapter :=
  (List.range fs.length).map (fun i =>
    ⟨toString (i + 1), strip (fs.getD i default).title, (fs.getD i default).page,
     if i < fs.length - 1 then (fs.getD (i + 1) default).page - 1 else page_count⟩)

/-- Every index collected by the enumerate loop is at least the starting
counter value. -/
theorem le_of_mem_validIndicesFrom :
    ∀ (toc : List OutlineEntry) (n j : Nat), j ∈ validIndicesFrom n toc → n ≤ j := by
  intro toc
  induction toc with
  | nil =>
    intro n j h
    simp [validIndicesFrom] at h
  | cons e rest ih =>
    intro n j h
    by_cases hq : qualifies e = true
    · simp only [validIndicesFrom, hq, if_true, List.mem_cons] at h
      rcases h with h | h
      · omega
      · have := ih (n + 1) j h
        omega
    · simp only [validIndicesFrom, hq, if_false, Bool.false_eq_true] at h
      have := ih (n + 1) j h
      omega

/-- Dereferencing the collected indices (relative to the starting counter)
yields exactly the qualifying entries, in order. -/
theorem validIndicesFrom_map_getD (toc : List OutlineEntry) :
    ∀ n : Nat,
      (validIndicesFrom n toc).map (fun j => toc.getD (j - n) default) =
        toc.filter (fun e => qualifies e) := by
  induction toc with
  | nil => intro n; rfl
  | cons e rest ih =>
    intro n
    have hcong : (validIndicesFrom (n + 1) rest).map
        (fun j => (e :: rest).getD (j - n) default) =
        (validIndicesFrom (n + 1) rest).map (fun j => rest.getD (j - (n + 1)) default) := by
      apply List.map_congr_left
      intro j hj
      have hle : n + 1 ≤ j := le_of_mem_validIndicesFrom rest (n + 1) j hj
      have hsub : j - n = (j - (n + 1)) + 1 := by omega
      rw [hsub, List.getD_cons_succ]
    by_cases hq : qualifies e = true
    · simp only [validIndicesFrom, hq, if_true, List.map_cons, Nat.sub_self,
        List.getD_cons_zero, List.filter_cons_of_pos hq]
      rw [hcong, ih (n + 1)]
    · simp only [validIndicesFrom, hq, if_false, List.filter_cons_of_neg hq,
        Bool.false_eq_true]
      rw [hcong, ih (n + 1)]

/-- Dereferencing valid_chapter_indices yields the filtered qualifying
entries. -/
theorem validChapterIndices_map_getD (toc : List OutlineEntry) :
    (validChapterIndices toc).map (fun j => toc.getD j default) =
      toc.filter (fun e => qualifies e) := by
  have h := validIndicesFrom_map_getD toc 0
  rw [validChapterIndices, ← h]
  apply List.map_congr_left
  intro j _
  simp

/-- valid_chapter_indices has one index per qualifying entry. -/
theorem length_validChapterIndices (toc : List OutlineEntry) :
    (validChapterIndices toc).length = (toc.filter (fun e => qualifies e)).length := by
  conv_rhs => rw [← validChapterIndices_map_getD toc]
  rw [List.length_map]

/-- The entry at the i-th collected index is the i-th qualifying entry. -/
theorem getD_validChapterIndices (toc : List OutlineEntry) (i : Nat)
    (hi : i < (validChapterIndices toc).length) :
    toc.getD ((validChapterIndices toc).getD i 0) default =
      (toc.filter (fun e => qualifies e)).getD i default := by
  have h := validChapterIndices_map_getD toc
  have h2 : (validChapterIndices toc)[i]? = some ((validChapterIndices toc)[i]) :=
    List.getElem?_eq_getElem hi
  have h1 : (toc.filter (fun e => qualifies e))[i]? =
      some (toc.getD ((validChapterIndices toc)[i]) default) := by
    rw [← h, List.getElem?_map, h2]
    rfl
  have h4 : (validChapterIndices toc).getD i 0 = (validChapterIndices toc)[i] := by
    rw [List.getD_eq_getElem?_getD, h2, Option.getD_some]
  rw [h4]
  conv_rhs => rw [List.getD_eq_getElem?_getD, h1, Option.getD_some]

/-- Characterization of get_chapter_map: fallback exactly when no entry
qualifies, otherwise the chapters indexed by the filtered qualifying list. -/
theorem get_chapter_map_char (doc : Doc) :
    get_chapter_map doc =
      if (doc.toc.filter (fun e => qualifies e)).isEmpty then
        fallbackChapters doc.page_count
      else
        chaptersOf (doc.toc.filter (fun e => qualifies e)) doc.page_count := by
  by_cases htoc : doc.toc.isEmpty = true
  · have : doc.toc = [] := List.isEmpty_iff.mp htoc
    simp [get_chapter_map, this]
  · have hlen := length_validChapterIndices doc.toc
    by_cases hval : (validChapterIndices doc.toc).isEmpty = true
    · have hv : validChapterIndices doc.toc = [] := List.isEmpty_iff.mp hval
      have hf : (doc.toc.filter (fun e => qualifies e)) = [] := by
        have : (doc.toc.filter (fun e => qualifies e)).length = 0 := by
          rw [← hlen, hv]
          rfl
        exact List.length_eq_zero.mp this
      simp [get_chapter_map, htoc, hval, hf]
    · have hf : (doc.toc.filter (fun e => qualifies e)).isEmpty = false := by
        rcases hcase : (doc.toc.filter (fun e => qualifies e)) with _ | ⟨a, l⟩
        · exfalso
          apply hval
          have : (validChapterIndices doc.toc).length = 0 := by
            rw [hlen, hcase]
            rfl
          rw [List.length_eq_zero.mp this]
          rfl
        · rfl
      simp only [get_chapter_map, htoc, hval, hf, if_false, Bool.false_eq_true,
        List.isEmpty_eq_true]
      rw [chaptersOf, ← hlen]
      apply List.map_congr_left
      intro i hi
      rw [List.mem_range] at hi
      rw [getD_validChapterIndices doc.toc i hi]
      by_cases hcond : i < (validChapterIndices doc.toc).length - 1
      · have hi1 : i + 1 < (validChapterIndices doc.toc).length := by omega
        rw [if_pos hcond, if_pos hcond, getD_validChapterIndices doc.toc (i + 1) hi1]
      · rw [if_neg hcond, if_neg hcond]

/-- chaptersOf produces one chapter per qualifying entry. -/
theorem length_chaptersOf (fs : List OutlineEntry) (page_count : Int) :
    (chaptersOf fs page_count).length = fs.length := by
  rw [chaptersOf, List.length_map, List.length_range]

/-- The i-th chapter produced by chaptersOf, in closed form. -/
theorem getD_chaptersOf (fs : List OutlineEntry) (page_count : Int) (i : Nat)
    (hi : i < fs.length) :
    (chaptersOf fs page_count).getD i default =
      ⟨toString (i + 1), strip (fs.getD i default).title, (fs.getD i default).page,
       if i < fs.length - 1 then (fs.getD (i + 1) default).page - 1 else page_count⟩ := by
  rw [List.getD_eq_getElem?_getD, chaptersOf, List.getElem?_map, List.getElem?_range hi]
  rfl

/-- An in-bounds getD is a member of the list. -/
theorem getD_mem {α : Type} (l : List α) (i : Nat) (d : α) (hi : i < l.length) :
    l.getD i d ∈ l := by
  rw [List.getD_eq_getElem?_getD, List.getElem?_eq_getElem hi, Option.getD_some]
  exact List.getElem_mem hi

/-- A concrete document used by several claims: the spec's three-entry
scenario, total_pages = 15. -/
def docScenario : Doc :=
  ⟨[⟨1, "Copyright", 1⟩, ⟨1, "Chapter 1: Intro", 3⟩, ⟨1, "Chapter 2: Depths", 10⟩],
   15, fun _ => Except.ok ""⟩

/-- Claim C1: on an outline with k >= 1 qualifying entries (level 1, stripped
title starting with "Chapter" or "Appendix"), get_chapter_map returns exactly
k chapters, numbered "1".."k" in outline order; chapter i starts at the page
of the i-th qualifying entry and carries its stripped title; the last
chapter's end_page is the page count, and every other chapter's end_page is
the next chapter's start_page minus 1. -/
theorem chapter_map_qualifying_structure (doc : Doc)
    (hk : doc.toc.filter (fun e => qualifies e) ≠ []) :
    (get_chapter_map doc).length = (doc.toc.filter (fun e => qualifies e)).length ∧
    (∀ i, i < (doc.toc.filter (fun e => qualifies e)).length →
      ((get_chapter_map doc).getD i default).chapter_number = toString (i + 1) ∧
      ((get_chapter_map doc).getD i default).title =
        strip ((doc.toc.filter (fun e => qualifies e)).getD i default).title ∧
      ((get_chapter_map doc).getD i default).start_page =
        ((doc.toc.filter (fun e => qualifies e)).getD i default).page) ∧
    ((get_chapter_map doc).getD
        ((doc.toc.filter (fun e => qualifies e)).length - 1) default).end_page =
      doc.page_count ∧
    (∀ i, i + 1 < (doc.toc.filter (fun e => qualifies e)).length →
      ((get_chapter_map doc).getD i default).end_page =
        ((get_chapter_map doc).getD (i + 1) default).start_page - 1) := by
  have hf : (doc.toc.filter (fun e => qualifies e)).isEmpty = false := by
    rcases h : doc.toc.filter (fun e => qualifies e) with _ | ⟨a, l⟩
    · exact absurd h hk
    · rfl
  have hchar : get_chapter_map doc =
      chaptersOf (doc.toc.filter (fun e => qualifies e)) doc.page_count := by
    rw [get_chapter_map_char, hf]
    rfl
  have hlen : 1 ≤ (doc.toc.filter (fun e => qualifies e)).length := by
    rcases h : doc.toc.filter (fun e => qualifies e) with _ | ⟨a, l⟩
    · exact absurd h hk
    · simp
  refine ⟨?_, ?_, ?_, ?_⟩
  · rw [hchar, length_chaptersOf]
  · intro i hi
    rw [hchar, getD_chaptersOf _ _ i hi]
    exact ⟨rfl, rfl, rfl⟩
  · have hi : (doc.toc.filter (fun e => qualifies e)).length - 1 <
        (doc.toc.filter (fun e => qualifies e)).length := by omega
    rw [hchar, getD_chaptersOf _ _ _ hi]
    have : ¬ ((doc.toc.filter (fun e => qualifies e)).length - 1 <
        (doc.toc.filter (fun e => qualifies e)).length - 1) := by omega
    simp [this]
  · intro i hi1
    have hi : i < (doc.toc.filter (fun e => qualifies e)).length := by omega
    have hcond : i < (doc.toc.filter (fun e => qualifies e)).length - 1 := by omega
    rw [hchar, getD_chaptersOf _ _ i hi, getD_chaptersOf _ _ (i + 1) hi1]
    simp [hcond]

/-- Witness for C1 on the concrete three-entry scenario. -/
theorem chapter_map_qualifying_structure_witness :
    (get_chapter_map docScenario).length =
      (docScenario.toc.filter (fun e => qualifies e)).length :=
  (chapter_map_qualifying_structure docScenario (by decide)).1

/-- Claim C2: on an empty outline, get_chapter_map returns the single
fallback chapter "1" / "Full Document" spanning pages 1..page_count. -/
theorem chapter_map_empty_outline (page_count : Int)
    (pageText : Int → Except String String) :
    get_chapter_map ⟨[], page_count, pageText⟩ =
      [⟨"1", "Full Document", 1, page_count⟩] :=
  rfl

/-- Claim C3: a non-empty outline with no qualifying entry yields exactly the
result of the empty outline with the same page count. -/
theorem chapter_map_no_qualifying_eq_empty (toc : List OutlineEntry)
    (page_count : Int) (pageText : Int → Except String String)
    (_hne : toc ≠ [])
    (hnq : ∀ e ∈ toc, qualifies e = false) :
    get_chapter_map ⟨toc, page_count, pageText⟩ =
      get_chapter_map ⟨[], page_count, pageText⟩ := by
  have hf : toc.filter (fun e => qualifies e) = [] := by
    rw [List.filter_eq_nil_iff]
    intro a ha
    rw [hnq a ha]
    simp
  rw [get_chapter_map_char, get_chapter_map_char]
  simp [hf]

/-- Witness for C3 on a one-entry outline that does not qualify. -/
theorem chapter_map_no_qualifying_eq_empty_witness :
    get_chapter_map ⟨[⟨1, "Copyright", 1⟩], 7, fun _ => Except.ok ""⟩ =
      get_chapter_map ⟨[], 7, fun _ => Except.ok ""⟩ :=
  chapter_map_no_qualifying_eq_empty [⟨1, "Copyright", 1⟩] 7 (fun _ => Except.ok "")
    (by decide) (by decide)

/-- A document whose two qualifying outline entries are not in increasing
page order. -/
def docNonMonotonic : Doc :=
  ⟨[⟨1, "Chapter A", 10⟩, ⟨1, "Chapter B", 3⟩], 15, fun _ => Except.ok ""⟩

/-- Claim C4 counterexample: with qualifying entries in decreasing page order
(pages 10 then 3, total 15), the first produced chapter is
("1", "Chapter A", 10, 2), whose end_page 2 is below its start_page 10, so
the unconditional invariant of the claim fails. -/
theorem chapter_bounds_counterexample :
    ¬ (∀ c ∈ get_chapter_map docNonMonotonic,
        1 ≤ c.start_page ∧ c.start_page ≤ c.end_page) := by
  decide

/-- Claim C4 amended: when the page count is at least 1, every outline page is
at least 1, the qualifying entries' pages strictly increase along the
outline, and no qualifying page exceeds the page count, then every chapter
satisfies 1 <= start_page and start_page <= end_page. -/
theorem chapter_bounds_of_monotone (doc : Doc)
    (hpc : 1 ≤ doc.page_count)
    (hpages : ∀ e ∈ doc.toc, 1 ≤ e.page)
    (hmono : ∀ i, i < (doc.toc.filter (fun e => qualifies e)).length - 1 →
      ((doc.toc.filter (fun e => qualifies e)).getD i default).page <
        ((doc.toc.filter (fun e => qualifies e)).getD (i + 1) default).page)
    (hlast : ∀ e ∈ doc.toc.filter (fun e => qualifies e), e.page ≤ doc.page_count) :
    ∀ c ∈ get_chapter_map doc, 1 ≤ c.start_page ∧ c.start_page ≤ c.end_page := by
  intro c hc
  rw [get_chapter_map_char] at hc
  by_cases hf : (doc.toc.filter (fun e => qualifies e)).isEmpty = true
  · rw [if_pos hf] at hc
    have : c = ⟨"1", "Full Document", 1, doc.page_count⟩ := by
      simpa [fallbackChapters] using hc
    rw [this]
    exact ⟨le_refl 1, hpc⟩
  · rw [if_neg hf] at hc
    rw [chaptersOf, List.mem_map] at hc
    obtain ⟨i, hir, hci⟩ := hc
    rw [List.mem_range] at hir
    have hmem : (doc.toc.filter (fun e => qualifies e)).getD i default ∈
        doc.toc.filter (fun e => qualifies e) := getD_mem _ i default hir
    have hstart : 1 ≤ ((doc.toc.filter (fun e => qualifies e)).getD i default).page :=
      hpages _ (List.mem_of_mem_filter hmem)
    rcases hci with rfl
    refine ⟨hstart, ?_⟩
    by_cases hcond : i < (doc.toc.filter (fun e => qualifies e)).length - 1
    · have := hmono i hcond
      simp only [hcond, if_true]
      omega
    · simp only [hcond, if_false]
      exact hlast _ hmem

/-- Witness for the amended C4 on a monotone two-chapter outline. -/
theorem chapter_bounds_of_monotone_witness :
    (1 : Int) ≤ 3 ∧ (3 : Int) ≤ 9 :=
  chapter_bounds_of_monotone
    ⟨[⟨1, "Chapter A", 3⟩, ⟨1, "Chapter B", 10⟩], 15, fun _ => Except.ok ""⟩
    (by decide) (by decide)
    (by
      intro i hi
      have h0 : i = 0 := by
        have h2 : ([⟨1, "Chapter A", 3⟩, ⟨1, "Chapter B", 10⟩] :
            List OutlineEntry).filter (fun e => qualifies e) =
            [⟨1, "Chapter A", 3⟩, ⟨1, "Chapter B", 10⟩] := by decide
        rw [h2] at hi
        simpa using hi
      rw [h0]
      decide)
    (by decide)
    ⟨"1", "Chapter A", 3, 9⟩ (by decide)

/-- Claim C5: on the concrete scenario outline (Copyright at page 1, Chapter
1 at page 3, Chapter 2 at page 10; 15 pages) the chapter map has exactly the
two expected chapters and the full-ToC text is the expected two-line
string. -/
theorem concrete_scenario_chapters_and_toc :
    get_chapter_map docScenario =
      [⟨"1", "Chapter 1: Intro", 3, 9⟩, ⟨"2", "Chapter 2: Depths", 10, 15⟩] ∧
    fullTocText (get_chapter_map docScenario) =
      "Chapter 1: Chapter 1: Intro (Page 3)\nChapter 2: Chapter 2: Depths (Page 10)" :=
  ⟨by decide, by decide⟩

/-- Claim C10: the chapter map is a function of the outline and the page
count alone; the page texts play no role. -/
theorem chapter_map_independent_of_page_text (d1 d2 : Doc)
    (htoc : d1.toc = d2.toc) (hpc : d1.page_count = d2.page_count) :
    get_chapter_map d1 = get_chapter_map d2 := by
  rw [get_chapter_map_char, get_chapter_map_char, htoc, hpc]

/-- Witness for C10: two documents equal on outline and page count but with
different page texts get the same chapter map. -/
theorem chapter_map_independent_of_page_text_witness :
    get_chapter_map ⟨[⟨1, "Chapter X", 2⟩], 5, fun _ => Except.ok "a"⟩ =
      get_chapter_map ⟨[⟨1, "Chapter X", 2⟩], 5, fun _ => Except.error "e"⟩ :=
  chapter_map_independent_of_page_text _ _ rfl rfl

/-- Every index in a pageRange lies in the half-open interval. -/
theorem mem_pageRange {lo hi i : Int} (h : i ∈ pageRange lo hi) : lo ≤ i ∧ i < hi := by
  simp only [pageRange, List.mem_map, List.mem_range] at h
  obtain ⟨k, hk, rfl⟩ := h
  simp only [Int.ofNat_eq_coe]
  omega

/-- Claim C6: for any chapter record, the segmenter visits exactly the
0-based indices of the clamped half-open range
[max(0, start_page - 1), min(page_count, end_page)); every visited index is
within [0, page_count - 1]; and when the clamped range is empty the chapter
text is the empty string regardless of the page accessor, with no failure. -/
theorem segmenter_page_range_safe (page_count : Int) (c : Chapter) :
    requestedPages page_count c =
      pageRange (max 0 (c.start_page - 1)) (min page_count c.end_page) ∧
    (∀ i ∈ requestedPages page_count c, 0 ≤ i ∧ i ≤ page_count - 1) ∧
    (∀ pageText : Int → Except String String,
      requestedPages page_count c = [] →
      chapterText pageText (requestedPages page_count c) = Except.ok "") := by
  refine ⟨rfl, ?_, ?_⟩
  · intro i hi
    simp only [requestedPages] at hi
    have h := mem_pageRange hi
    have h1 : (0 : Int) ≤ max 0 (c.start_page - 1) := le_max_left 0 _
    have h2 : min page_count c.end_page ≤ page_count := min_le_left _ _
    omega
  · intro pageText hempty
    rw [hempty]
    rfl

/-- Witness for C6: a visited index of an in-bounds chapter is in range, and
a reversed chapter (start 9, end 2) yields the empty text even under an
always-failing page accessor. -/
theorem segmenter_page_range_safe_witness :
    ((0 : Int) ≤ 3 ∧ (3 : Int) ≤ 5 - 1) ∧
      chapterText (fun _ => Except.error "boom") (requestedPages 5 ⟨"1", "T", 9, 2⟩) =
        Except.ok "" :=
  ⟨(segmenter_page_range_safe 5 ⟨"1", "T", 0, 99⟩).2.1 3 (by decide),
   (segmenter_page_range_safe 5 ⟨"1", "T", 9, 2⟩).2.2 (fun _ => Except.error "boom")
     (by decide)⟩

/-- sanitize removes every NUL character. -/
theorem nulChar_not_mem_sanitize (s : String) : nulChar ∉ (sanitize s).data := by
  intro h
  have h2 : nulChar ∈ s.data.filter (fun c => c != nulChar) := h
  rw [List.mem_filter] at h2
  simp at h2

/-- Every chunk produced by the layer-3 loop carries sanitized content. -/
theorem chunkDocs_content_sanitized
    (split : String → Except String (List String))
    (pageText : Int → Except String String) (page_count : Int) :
    ∀ (cm : List Chapter) (out : List ChunkDoc),
      chunkDocs split pageText page_count cm = Except.ok out →
      ∀ ch ∈ out, ∃ s, ch.content = sanitize s := by
  intro cm
  induction cm with
  | nil =>
    intro out h ch hch
    simp only [chunkDocs] at h
    injection h with h
    subst h
    cases hch
  | cons c rest ih =>
    intro out h ch hch
    simp only [chunkDocs] at h
    cases htxt : chapterText pageText (requestedPages page_count c) with
    | error e =>
      simp only [htxt] at h
      cases h
    | ok txt =>
      simp only [htxt] at h
      cases hsp : split txt with
      | error e =>
        simp only [hsp] at h
        cases h
      | ok chunks =>
        simp only [hsp] at h
        cases htail : chunkDocs split pageText page_count rest with
        | error e =>
          simp only [htail] at h
          cases h
        | ok tail =>
          simp only [htail] at h
          injection h with h
          subst h
          rw [List.mem_append] at hch
          rcases hch with hch | hch
          · rw [chapterChunkDocs, List.mem_map] at hch
            obtain ⟨s, _, rfl⟩ := hch
            exact ⟨s, rfl⟩
          · exact ih tail htail ch hch

/-- Claim C7: whenever process_pdf succeeds, no chunk in layer3_chunks
contains the NUL character, whatever the page texts contained. -/
theorem chunks_never_contain_nul (openDoc : Except String Doc)
    (split : String → Except String (List String)) (layers : Layers)
    (h : (process_pdf openDoc split).response = Except.ok layers) :
    ∀ ch ∈ layers.layer3_chunks, nulChar ∉ ch.content.data := by
  intro ch hch
  cases openDoc with
  | error e =>
    simp only [process_pdf] at h
    cases h
  | ok doc =>
    simp only [process_pdf] at h
    cases hcd : chunkDocs split doc.pageText doc.page_count (get_chapter_map doc) with
    | error e =>
      simp only [hcd] at h
      cases h
    | ok out =>
      simp only [hcd] at h
      injection h with h
      subst h
      obtain ⟨s, hs⟩ :=
        chunkDocs_content_sanitized split doc.pageText doc.page_count
          (get_chapter_map doc) out hcd ch hch
      rw [hs]
      exact nulChar_not_mem_sanitize s

/-- A document with one page whose text contains a NUL byte. -/
def docNul : Doc :=
  ⟨[], 1, fun _ => Except.ok (String.mk ['a', nulChar, 'b'])⟩

/-- The identity splitter: one chunk carrying the whole chapter text. -/
def splitId : String → Except String (List String) :=
  fun s => Except.ok [s]

/-- The layers process_pdf produces on docNul with splitId. -/
def layersNul : Layers :=
  ⟨⟨"Chapter 1: Full Document (Page 1)", "toc_full"⟩,
   [⟨"Chapter 1: Full Document (Starts on Page 1)", "toc_entry", "1"⟩],
   [⟨"ab", "chunk", "1", "Full Document"⟩]⟩

/-- Witness for C7: a page text with an embedded NUL yields the chunk "ab",
free of NUL. -/
theorem chunks_never_contain_nul_witness :
    nulChar ∉ ("ab" : String).data :=
  chunks_never_contain_nul (Except.ok docNul) splitId layersNul (by rfl)
    ⟨"ab", "chunk", "1", "Full Document"⟩ (by decide)

/-- The layer-3 loop distributes over appended chapter lists. -/
theorem chunkDocs_append (split : String → Except String (List String))
    (pageText : Int → Except String String) (page_count : Int) :
    ∀ (l1 l2 : List Chapter) (o1 o2 : List ChunkDoc),
      chunkDocs split pageText page_count l1 = Except.ok o1 →
      chunkDocs split pageText page_count l2 = Except.ok o2 →
      chunkDocs split pageText page_count (l1 ++ l2) = Except.ok (o1 ++ o2) := by
  intro l1
  induction l1 with
  | nil =>
    intro l2 o1 o2 h1 h2
    simp only [chunkDocs] at h1
    injection h1 with h1
    subst h1
    simpa using h2
  | cons c rest ih =>
    intro l2 o1 o2 h1 h2
    rw [List.cons_append]
    simp only [chunkDocs] at h1 ⊢
    cases htxt : chapterText pageText (requestedPages page_count c) with
    | error e =>
      simp only [htxt] at h1
      cases h1
    | ok txt =>
      simp only [htxt] at h1 ⊢
      cases hsp : split txt with
      | error e =>
        simp only [hsp] at h1
        cases h1
      | ok chunks =>
        simp only [hsp] at h1 ⊢
        cases htail : chunkDocs split pageText page_count rest with
        | error e =>
          simp only [htail] at h1
          cases h1
        | ok tail =>
          simp only [htail] at h1
          injection h1 with h1
          subst h1
          have hih := ih l2 tail o2 htail h2
          simp only [hih]
          rw [List.append_assoc]

/-- Claim C8: a chapter whose extracted text is empty contributes zero
chunks, while its ToC-entry document and its full-ToC line are still
produced and the whole operation succeeds (given the other chapters
process without failure and the splitter returns no chunks on ""). -/
theorem empty_chapter_zero_chunks (doc : Doc)
    (split : String → Except String (List String))
    (pre post : List Chapter) (c : Chapter) (outPre outPost : List ChunkDoc)
    (hcm : get_chapter_map doc = pre ++ c :: post)
    (htxt : chapterText doc.pageText (requestedPages doc.page_count c) = Except.ok "")
    (hsplit : split "" = Except.ok [])
    (hpre : chunkDocs split doc.pageText doc.page_count pre = Except.ok outPre)
    (hpost : chunkDocs split doc.pageText doc.page_count post = Except.ok outPost) :
    ∃ layers : Layers,
      (process_pdf (Except.ok doc) split).response = Except.ok layers ∧
      layers.layer3_chunks = outPre ++ outPost ∧
      tocEntryDoc c ∈ layers.layer1_entry_docs ∧
      layers.layer1_full_toc_doc.content = fullTocText (get_chapter_map doc) ∧
      tocLine c ∈ (get_chapter_map doc).map tocLine := by
  have hc1 : chunkDocs split doc.pageText doc.page_count (c :: post) =
      Except.ok outPost := by
    simp only [chunkDocs, htxt, hsplit, hpost]
    simp [chapterChunkDocs]
  have hall : chunkDocs split doc.pageText doc.page_count (pre ++ c :: post) =
      Except.ok (outPre ++ outPost) :=
    chunkDocs_append split doc.pageText doc.page_count pre (c :: post) outPre outPost
      hpre hc1
  refine ⟨⟨⟨fullTocText (get_chapter_map doc), "toc_full"⟩,
           tocEntryDocs (get_chapter_map doc), outPre ++ outPost⟩, ?_, rfl, ?_, rfl, ?_⟩
  · simp only [process_pdf]
    rw [hcm]
    simp only [hall]
  · rw [tocEntryDocs]
    exact List.mem_map_of_mem tocEntryDoc (by rw [hcm]; simp)
  · exact List.mem_map_of_mem tocLine (by rw [hcm]; simp)

/-- A two-chapter document whose second chapter has empty page text. -/
def docEmptyCh : Doc :=
  ⟨[⟨1, "Chapter A", 1⟩, ⟨1, "Chapter B", 2⟩], 2,
   fun i => Except.ok (if i = 0 then "x" else "")⟩

/-- A splitter returning no chunks on empty input and one chunk otherwise. -/
def splitIfEmpty : String → Except String (List String) :=
  fun s => Except.ok (if s = "" then [] else [s])

/-- Witness for C8 on docEmptyCh: Chapter B (empty text) contributes no
chunk, yet its ToC entry and ToC line are present and the run succeeds. -/
theorem empty_chapter_zero_chunks_witness :
    ∃ layers : Layers,
      (process_pdf (Except.ok docEmptyCh) splitIfEmpty).response = Except.ok layers ∧
      layers.layer3_chunks = [⟨"x", "chunk", "1", "Chapter A"⟩] ++ [] ∧
      tocEntryDoc ⟨"2", "Chapter B", 2, 2⟩ ∈ layers.layer1_entry_docs ∧
      layers.layer1_full_toc_doc.content = fullTocText (get_chapter_map docEmptyCh) ∧
      tocLine ⟨"2", "Chapter B", 2, 2⟩ ∈ (get_chapter_map docEmptyCh).map tocLine :=
  empty_chapter_zero_chunks docEmptyCh splitIfEmpty
    [⟨"1", "Chapter A", 1, 1⟩] [] ⟨"2", "Chapter B", 2, 2⟩
    [⟨"x", "chunk", "1", "Chapter A"⟩] []
    (by decide) (by rfl) (by rfl) (by rfl) (by rfl)

/-- A document whose page-text extraction always raises. -/
def docLeaky : Doc :=
  ⟨[], 1, fun _ => Except.error "boom"⟩

/-- Claim C9 evaluation: on a document whose page-text extraction raises,
process_pdf returns the single descriptive error with no partial layers, but
the acquired document handle is NOT closed before returning: the close call
sits on the success path only, so the failure path leaks the handle. -/
theorem process_pdf_leak_on_failure :
    (process_pdf (Except.ok docLeaky) splitId).response =
      Except.error "Failed to process PDF: boom" ∧
    (process_pdf (Except.ok docLeaky) splitId).opened = true ∧
    (process_pdf (Except.ok docLeaky) splitId).closed = false :=
  ⟨rfl, rfl, rfl⟩

end PdfService
